import Mathlib

/-!
Verification of the conversation-memory subsystem of `src/ChatBot.py`
(the DANTE multi-user chatbot).  The Python module stores chat turns in a
SQLite table `history(id AUTOINCREMENT, user_id, role, content, timestamp)`,
keeps at most one rolling summary per user in
`summaries(user_id PRIMARY KEY, summary_content, last_updated)`, assembles the
bounded message list sent to the model (`load_memory_from_db`), and compacts
old history (`manage_conversation_history`).

The embedding below models the database as explicit lists: `history` as a
list of `Turn`s (the AUTOINCREMENT primary key is modelled by `nextId`;
`CURRENT_TIMESTAMP` by an explicit `now` argument) and `summaries` as an
association list from user id to summary content.  SQL queries are modelled
by list operations; `ORDER BY timestamp` on the index `(user_id, timestamp)`
resolves equal timestamps by rowid, so the sort key is the pair
`(timestamp, id)`.  The opaque model-call collaborator is modelled by an
`Option String` argument: `none` for a raised exception, `some t` for a reply
with text `t`.
-/

namespace ChatBot

/-- Configuration constant `MAX_HISTORY_MESSAGES = 50` of `ChatBot.py`. -/
def MAX_HISTORY_MESSAGES : Nat := 50

/-- Configuration constant `SUMMARIZATION_THRESHOLD = 40` of `ChatBot.py`. -/
def SUMMARIZATION_THRESHOLD : Nat := 40

/-- Configuration constant `MESSAGES_TO_SUMMARIZE = 30` of `ChatBot.py`. -/
def MESSAGES_TO_SUMMARIZE : Nat := 30

/-- The process-wide system role-definition text (`universal_role` in
`ChatBot.py`). -/
def universal_role : String :=
  "You are Dante, a professional AI assistant. Your primary goal is to provide structured and easy-to-scan answers. " ++
  "ALWAYS format your responses as follows:\n" ++
  "1. Start with a brief, one-sentence summary of the answer.\n" ++
  "2. Follow up with the main points presented as a bulleted or numbered list.\n" ++
  "3. Keep each point concise and to the point.\n" ++
  "AVOID writing long, dense paragraphs. Prioritize clarity and structure using lists."

/-- The fixed apology string returned by `get_ai_response` when the
completion call raises. -/
def apologyMessage : String :=
  "I\x27m experiencing technical difficulties. Please try again."

/-- The fixed text prepended to the stored summary by `load_memory_from_db`. -/
def summaryHeader : String := "Summary of conversation so far: "

/-- Python `str.isspace` characters that matter for ASCII text: the
characters removed from both ends by `str.strip()`. -/
def isPySpace (c : Char) : Bool :=
  c = ' ' || c = '\t' || c = '\n' || c = '\r' || c = '\x0B' || c = '\x0C'

/-- Python `str.strip()`: remove leading and trailing whitespace. -/
def pyStrip (s : String) : String :=
  String.mk (((s.toList.dropWhile isPySpace).reverse.dropWhile isPySpace).reverse)

/-- A row of the `history` table. -/
structure Turn where
  id : Nat
  user_id : Nat
  role : String
  content : String
  timestamp : Nat
deriving DecidableEq, Repr

/-- One element of the message list handed to the model: a `role`/`content`
dictionary. -/
structure Message where
  role : String
  content : String
deriving DecidableEq, Repr

/-- The database state: the `history` table, the `summaries` table (an
association list user id to `summary_content`; `user_id` is its primary
key), and the next AUTOINCREMENT id of `history`. -/
structure DB where
  history : List Turn
  summaries : List (Nat × String)
  nextId : Nat
deriving DecidableEq, Repr

/-- The empty database, as `init_db` creates it. -/
def emptyDB : DB := { history := [], summaries := [], nextId := 0 }

/-- The `(timestamp, id)` sort key, as a boolean linear order: SQLite orders
`history` rows by `timestamp` via the index `(user_id, timestamp)`, and rows
with equal timestamps by rowid, i.e. by `id`. -/
def turnLe (a b : Turn) : Bool :=
  a.timestamp < b.timestamp || (a.timestamp = b.timestamp && a.id ≤ b.id)

/-- `WHERE user_id = ?` on the `history` table. -/
def userTurns (db : DB) (u : Nat) : List Turn :=
  db.history.filter (fun t => t.user_id = u)

/-- `SELECT COUNT(*) FROM history WHERE user_id = ?`. -/
def historyCount (db : DB) (u : Nat) : Nat :=
  (userTurns db u).length

/-- `turnLe` as a decidable relation (ascending key order). -/
def turnRel (a b : Turn) : Prop := turnLe a b = true

/-- The descending key order used by `ORDER BY timestamp DESC`. -/
def turnRelDesc (a b : Turn) : Prop := turnLe b a = true

instance : DecidableRel turnRel :=
  fun a b => inferInstanceAs (Decidable (turnLe a b = true))

instance : DecidableRel turnRelDesc :=
  fun a b => inferInstanceAs (Decidable (turnLe b a = true))

instance : IsTotal Turn turnRel :=
  ⟨fun a b => by
    simp only [turnRel, turnLe, Bool.or_eq_true, Bool.and_eq_true, decide_eq_true_eq]
    omega⟩

instance : IsTrans Turn turnRel :=
  ⟨fun a b c hab hbc => by
    simp only [turnRel, turnLe, Bool.or_eq_true, Bool.and_eq_true,
      decide_eq_true_eq] at hab hbc ⊢
    omega⟩

instance : IsTotal Turn turnRelDesc :=
  ⟨fun a b => by
    simp only [turnRelDesc, turnLe, Bool.or_eq_true, Bool.and_eq_true, decide_eq_true_eq]
    omega⟩

instance : IsTrans Turn turnRelDesc :=
  ⟨fun a b c hab hbc => by
    simp only [turnRelDesc, turnLe, Bool.or_eq_true, Bool.and_eq_true,
      decide_eq_true_eq] at hab hbc ⊢
    omega⟩

/-- `SELECT ... FROM history WHERE user_id = ? ORDER BY timestamp ASC`
(equal timestamps resolved by rowid), modelled as a deterministic sort by
the `(timestamp, id)` key. -/
def turnsAsc (db : DB) (u : Nat) : List Turn :=
  List.insertionSort turnRel (userTurns db u)

/-- The recent-turns read of `load_memory_from_db`:
`SELECT ... ORDER BY timestamp DESC LIMIT max_messages` followed by the
Python-side `reversed(rows)`. -/
def recentTurns (db : DB) (u : Nat) (limit : Nat) : List Turn :=
  ((List.insertionSort turnRelDesc (userTurns db u)).take limit).reverse

/-- Look up the summary content for user `u` in a `summaries` table. -/
def rowsLookup (rows : List (Nat × String)) (u : Nat) : Option String :=
  (rows.find? (fun p => p.1 = u)).map (fun p => p.2)

/-- The number of `summaries` rows whose key is `u`. -/
def rowsForUser (rows : List (Nat × String)) (u : Nat) : Nat :=
  (rows.filter (fun p => p.1 = u)).length

/-- `SELECT summary_content FROM summaries WHERE user_id = ?`. -/
def summaryLookup (db : DB) (u : Nat) : Option String :=
  rowsLookup db.summaries u

/-- `load_memory_from_db`, success path: the system role-definition message,
then (if a summary row exists) the prefixed summary as a system message,
then the recent turns oldest first. -/
def load_memory_ok (db : DB) (u : Nat) (max_messages : Nat) : List Message :=
  let base : List Message := [⟨"system", universal_role⟩]
  let withSummary : List Message :=
    match summaryLookup db u with
    | some s => base ++ [⟨"system", summaryHeader ++ s⟩]
    | none => base
  withSummary ++ (recentTurns db u max_messages).map (fun t => ⟨t.role, t.content⟩)

/-- `load_memory_from_db` including its `except` branch: `fail = true` models
a database exception during the read, in which case only the system
role-definition message is returned. -/
def load_memory_from_db (fail : Bool) (db : DB) (u : Nat) (max_messages : Nat) :
    List Message :=
  if fail then [⟨"system", universal_role⟩] else load_memory_ok db u max_messages

/-- `add_message_to_db` (success path): `INSERT INTO history
(user_id, role, content)` with the AUTOINCREMENT id and `CURRENT_TIMESTAMP`
(the `now` argument). -/
def add_message_to_db (db : DB) (u : Nat) (role content : String) (now : Nat) : DB :=
  { history := db.history ++ [⟨db.nextId, u, role, content, now⟩]
    summaries := db.summaries
    nextId := db.nextId + 1 }

/-- `get_ai_response`: the completion text on success, the fixed apology
string when the call raises (`none`). -/
def get_ai_response (outcome : Option String) : String :=
  match outcome with
  | some t => t
  | none => apologyMessage

/-- The `user_message` socket handler `handle_user_message` (success path of
its `try` block): strip the incoming text, return without any effect when the
result is falsy, otherwise append the user turn, build the memory, obtain
the reply via `get_ai_response` (the completion outcome is the opaque
`outcome` argument), append the reply as an assistant turn and emit it.
Returns the new database state and the emitted reply (`none` when the
message was rejected).  The detached `manage_conversation_history` task the
handler spawns afterwards is modelled separately. -/
def handle_user_message (db : DB) (u : Nat) (raw : String)
    (outcome : Option String) (now : Nat) : DB × Option String :=
  let user_message := pyStrip raw
  if user_message = "" then (db, none)
  else
    let db1 := add_message_to_db db u "user" user_message now
    let ai_response := get_ai_response outcome
    let db2 := add_message_to_db db1 u "assistant" ai_response now
    (db2, some ai_response)

/-- The guard `if not new_summary_part` of `manage_conversation_history`:
the summarizer outcome is usable when the call did not raise (`some`) and
the returned text is truthy (non-empty). -/
def usableText (r : Option String) : Option String :=
  match r with
  | none => none
  | some t => if t = "" then none else some t

/-- `full_summary` of `manage_conversation_history`:
`f"{existing if existing else ''}\n\n{new_part}".strip()`. -/
def mergedSummary (existing : Option String) (frag : String) : String :=
  pyStrip (existing.getD "" ++ "\n\n" ++ frag)

/-- The SQL `INSERT ... ON CONFLICT(user_id) DO UPDATE` on `summaries`
(primary key `user_id`): update the existing row for `u` when there is one,
otherwise insert a fresh row. -/
def upsertRow (rows : List (Nat × String)) (u : Nat) (c : String) :
    List (Nat × String) :=
  if rows.any (fun p => p.1 = u) then
    rows.map (fun p => if p.1 = u then (u, c) else p)
  else rows ++ [(u, c)]

/-- The summary upsert performed by compaction (lines 209-215 of
`ChatBot.py`): read the existing summary, merge the new fragment into it,
and upsert the result. -/
def summaryUpsert (rows : List (Nat × String)) (u : Nat) (frag : String) :
    List (Nat × String) :=
  upsertRow rows u (mergedSummary ((rows.find? (fun p => p.1 = u)).map (fun p => p.2)) frag)

/-- One database effect of a compaction run. -/
inductive Effect where
  | upsertSummary (u : Nat) (content : String)
  | deleteTurns (ids : List Nat)
deriving DecidableEq, Repr

/-- The effects `manage_conversation_history` issues, in program order,
given the summarizer outcome `r` (with the threshold and block size as
parameters; the module calls it with `SUMMARIZATION_THRESHOLD` and
`MESSAGES_TO_SUMMARIZE`): nothing below the threshold; nothing when the
summarizer outcome is unusable; otherwise the summary upsert followed by the
deletion of the compaction block (guarded by `if ids_to_delete`). -/
def manageEffects (thresh nsumm : Nat) (db : DB) (u : Nat) (r : Option String) :
    List Effect :=
  if historyCount db u < thresh then []
  else
    let block := (turnsAsc db u).take nsumm
    let ids := block.map (fun t => t.id)
    match usableText r with
    | none => []
    | some t =>
      let full := mergedSummary (summaryLookup db u) t
      Effect.upsertSummary u full :: (if ids.isEmpty then [] else [Effect.deleteTurns ids])

/-- Apply one compaction effect to the database: the summaries upsert, or
`DELETE FROM history WHERE id IN (...)`. -/
def applyEffect (db : DB) : Effect → DB
  | Effect.upsertSummary u c => { db with summaries := upsertRow db.summaries u c }
  | Effect.deleteTurns ids =>
      { db with history := db.history.filter (fun t => t.id ∉ ids) }

/-- `manage_conversation_history` as a state transformer: its effects applied
in program order (both effects are committed by the single `conn.commit()`
at the end of the run). -/
def manage_conversation_history (thresh nsumm : Nat) (db : DB) (u : Nat)
    (r : Option String) : DB :=
  (manageEffects thresh nsumm db u r).foldl applyEffect db

/-- Modelled from the spec: the Request Gate (spec section 4.5) has no code in
`src/ChatBot.py`; there is no rate limiter in the repository's single source
file.  Per the spec's words: a per-session sliding-window counter keeping the
request timestamps within the trailing `timeWindow` seconds; once
`maxRequests` timestamps remain in the window it denies and does not consume
a slot, otherwise it records the new timestamp and allows.  Returns the
decision and the new window state. -/
def rg_allow (maxRequests timeWindow now : Nat) (ts : List Nat) :
    Bool × List Nat :=
  let live := ts.filter (fun t => now < t + timeWindow)
  if maxRequests ≤ live.length then (false, live) else (true, now :: live)

/-- Modelled from the spec: run the Request Gate over a sequence of request
times for one session, starting from an empty window, collecting the
decisions and the final window state. -/
def rg_run (maxRequests timeWindow : Nat) (times : List Nat) :
    List Bool × List Nat :=
  times.foldl
    (fun acc t =>
      let step := rg_allow maxRequests timeWindow t acc.2
      (acc.1 ++ [step.1], step.2))
    ([], [])

/-! ### Helper lemmas -/

theorem turnLe_total (a b : Turn) : (turnLe a b || turnLe b a) = true := by
  simp only [turnLe, Bool.or_eq_true, Bool.and_eq_true, decide_eq_true_eq]
  omega

theorem turnLe_trans (a b c : Turn) (hab : turnLe a b = true)
    (hbc : turnLe b c = true) : turnLe a c = true := by
  simp only [turnLe, Bool.or_eq_true, Bool.and_eq_true, decide_eq_true_eq] at *
  omega

theorem pyStrip_eq_empty_iff (s : String) :
    pyStrip s = "" ↔ ∀ c ∈ s.toList, isPySpace c = true := by
  constructor
  · intro h c hc
    have hl : ((s.toList.dropWhile isPySpace).reverse.dropWhile isPySpace).reverse
        = [] := by
      have hd := congrArg String.data h
      simpa [pyStrip] using hd
    rw [List.reverse_eq_nil_iff, List.dropWhile_eq_nil_iff] at hl
    by_cases hmem : c ∈ s.toList.dropWhile isPySpace
    · exact hl c (List.mem_reverse.mpr hmem)
    · have hsplit : c ∈ s.toList.takeWhile isPySpace ++ s.toList.dropWhile isPySpace := by
        rw [List.takeWhile_append_dropWhile]
        exact hc
      rcases List.mem_append.mp hsplit with h1 | h2
      · exact List.mem_takeWhile_imp h1
      · exact absurd h2 hmem
  · intro h
    have h1 : List.dropWhile isPySpace s.data = [] := List.dropWhile_eq_nil_iff.mpr h
    show String.mk (((List.dropWhile isPySpace s.data).reverse.dropWhile isPySpace).reverse) = ""
    rw [h1]
    rfl

theorem pyStrip_newlines_prepend (s : String) : pyStrip ("\n\n" ++ s) = pyStrip s := by
  unfold pyStrip
  have h : ("\n\n" ++ s).toList = '\n' :: '\n' :: s.toList := by
    show ("\n\n" ++ s).data = '\n' :: '\n' :: s.data
    rw [String.data_append]
    rfl
  rw [h]
  simp [List.dropWhile_cons, isPySpace]

theorem find?_map_update (rows : List (Nat × String)) (u : Nat) (c : String)
    (h : rows.any (fun p => p.1 = u) = true) :
    (rows.map (fun p => if p.1 = u then (u, c) else p)).find? (fun p => p.1 = u)
      = some (u, c) := by
  induction rows with
  | nil => simp at h
  | cons q rest ih =>
    by_cases hq : q.1 = u
    · simp [hq]
    · have hrest : rest.any (fun p => p.1 = u) = true := by
        simpa [List.any_cons, hq] using h
      simpa [hq] using ih hrest

theorem rowsLookup_upsertRow (rows : List (Nat × String)) (u : Nat) (c : String) :
    rowsLookup (upsertRow rows u c) u = some c := by
  unfold rowsLookup upsertRow
  by_cases h : rows.any (fun p => p.1 = u) = true
  · rw [if_pos h, find?_map_update rows u c h]
    rfl
  · rw [if_neg h, List.find?_append]
    have hnone : rows.find? (fun p => p.1 = u) = none := by
      rw [List.find?_eq_none]
      intro x hx
      simpa using List.any_eq_false.mp (Bool.eq_false_iff.mpr h) x hx
    simp [hnone]

theorem rowsForUser_upsertRow (rows : List (Nat × String)) (u : Nat) (c : String)
    (h : rowsForUser rows u ≤ 1) : rowsForUser (upsertRow rows u c) u = 1 := by
  unfold rowsForUser upsertRow at *
  by_cases ha : rows.any (fun p => p.1 = u) = true
  · rw [if_pos ha, List.filter_map, List.length_map]
    have hcong :
        List.filter ((fun p : Nat × String => decide (p.1 = u)) ∘
            (fun p => if p.1 = u then (u, c) else p)) rows
          = List.filter (fun p => decide (p.1 = u)) rows := by
      apply List.filter_congr
      intro x _
      by_cases hxu : x.1 = u <;> simp [hxu]
    rw [hcong]
    obtain ⟨x, hx, hpx⟩ := List.any_eq_true.mp ha
    have hmem : x ∈ rows.filter (fun p => p.1 = u) :=
      List.mem_filter.mpr ⟨hx, hpx⟩
    have hpos := List.length_pos_of_mem hmem
    omega
  · rw [if_neg ha, List.filter_append]
    have h0 : rows.filter (fun p => p.1 = u) = [] := by
      rw [List.filter_eq_nil_iff]
      intro x hx
      simpa using List.any_eq_false.mp (Bool.eq_false_iff.mpr ha) x hx
    simp [h0]

theorem manageEffects_nil_of_unusable (thresh nsumm : Nat) (db : DB) (u : Nat)
    (r : Option String) (h : usableText r = none) :
    manageEffects thresh nsumm db u r = [] := by
  unfold manageEffects
  rw [h]
  split <;> rfl

/-! ### Claims -/

/-- Claim C1: for every user and every store state, if the summarization
model call during compaction fails (raises, or returns the falsy empty
string — the guard `if not new_summary_part`), the compaction run performed
by `manage_conversation_history` leaves the store unchanged: the turn count
and the summary row of the user are the same afterwards, and no turns are
deleted. -/
theorem c1_compaction_abort_leaves_store_unchanged (db : DB) (u : Nat)
    (r : Option String) (h : usableText r = none) :
    historyCount
        (manage_conversation_history SUMMARIZATION_THRESHOLD MESSAGES_TO_SUMMARIZE db u r) u
      = historyCount db u ∧
    summaryLookup
        (manage_conversation_history SUMMARIZATION_THRESHOLD MESSAGES_TO_SUMMARIZE db u r) u
      = summaryLookup db u ∧
    (manage_conversation_history SUMMARIZATION_THRESHOLD MESSAGES_TO_SUMMARIZE db u r).history
      = db.history := by
  have he := manageEffects_nil_of_unusable SUMMARIZATION_THRESHOLD MESSAGES_TO_SUMMARIZE db u r h
  have hm : manage_conversation_history SUMMARIZATION_THRESHOLD MESSAGES_TO_SUMMARIZE db u r
      = db := by
    unfold manage_conversation_history
    rw [he]
    rfl
  rw [hm]
  exact ⟨rfl, rfl, rfl⟩

/-- Witness for C1 at a concrete store and a raising summarizer call. -/
theorem c1_witness :
    historyCount
        (manage_conversation_history SUMMARIZATION_THRESHOLD MESSAGES_TO_SUMMARIZE emptyDB 1 none) 1
      = historyCount emptyDB 1 ∧
    summaryLookup
        (manage_conversation_history SUMMARIZATION_THRESHOLD MESSAGES_TO_SUMMARIZE emptyDB 1 none) 1
      = summaryLookup emptyDB 1 ∧
    (manage_conversation_history SUMMARIZATION_THRESHOLD MESSAGES_TO_SUMMARIZE emptyDB 1 none).history
      = emptyDB.history :=
  c1_compaction_abort_leaves_store_unchanged emptyDB 1 none (by decide)

/-- Claim C5 (the Request Gate is modelled from the spec; no rate limiter
exists in `src/ChatBot.py`): with `max_requests = 3` and `time_window = 60`,
four calls to `allow` within the window yield `[true, true, true, false]`,
a call after the window elapses yields `true` again, and a denied call never
records a new timestamp (the window state after a denial is a sublist of the
state before it). -/
theorem c5_rate_gate_scenario :
    (rg_run 3 60 [0, 1, 2, 3]).1 = [true, true, true, false] ∧
    (rg_allow 3 60 63 (rg_run 3 60 [0, 1, 2, 3]).2).1 = true ∧
    ∀ (now : Nat) (ts : List Nat),
      (rg_allow 3 60 now ts).1 = false → ((rg_allow 3 60 now ts).2).Sublist ts := by
  refine ⟨by decide, by decide, ?_⟩
  intro now ts h
  by_cases hc : 3 ≤ (ts.filter (fun t => now < t + 60)).length
  · simp only [rg_allow, if_pos hc]
    exact List.filter_sublist ts
  · simp [rg_allow, if_neg hc] at h

/-- Claim C6, counterexample: on a model-call failure the conversation state
is NOT "otherwise unaffected" — `handle_user_message` stores the apology
string as an assistant turn, so the history gains two rows, not one. -/
theorem c6_counterexample :
    (handle_user_message emptyDB 1 "hi" none 0).2 = some apologyMessage ∧
    (handle_user_message emptyDB 1 "hi" none 0).1.history.length = 2 ∧
    ¬ (handle_user_message emptyDB 1 "hi" none 0).1.history.length ≤ 1 := by
  decide

/-- Claim C6 as amended: if the model completion call fails,
`handle_user_message` surfaces the fixed generic apology string to the user,
and the state changes by exactly two appends: the user turn and an assistant
turn holding the apology string itself (the apology is persisted because
`get_ai_response` swallows the error and returns the apology as if it were
the reply). -/
theorem c6_model_failure_apology_appended (db : DB) (u : Nat) (raw : String)
    (now : Nat) (h : pyStrip raw ≠ "") :
    (handle_user_message db u raw none now).2 = some apologyMessage ∧
    (handle_user_message db u raw none now).1 =
      add_message_to_db (add_message_to_db db u "user" (pyStrip raw) now) u
        "assistant" apologyMessage now := by
  unfold handle_user_message
  rw [if_neg h]
  exact ⟨rfl, rfl⟩

/-- Witness for C6's amended theorem at a concrete message. -/
theorem c6_witness :
    (handle_user_message emptyDB 2 "ping" none 5).2 = some apologyMessage ∧
    (handle_user_message emptyDB 2 "ping" none 5).1 =
      add_message_to_db (add_message_to_db emptyDB 2 "user" (pyStrip "ping") 5) 2
        "assistant" apologyMessage 5 :=
  c6_model_failure_apology_appended emptyDB 2 "ping" 5 (by decide)

/-- A 5000-character single-line message, standing for an oversized input:
neither `ChatBot.py` nor its configuration defines any maximum message
length. -/
def oversizedMessage : String := String.mk (List.replicate 5000 'a')

/-- Claim C8, counterexample: an oversized message is NOT rejected —
`handle_user_message` has no size check at all, so a 5000-character message
is stored (the history gains the user turn and the assistant turn). -/
theorem c8_counterexample :
    (handle_user_message emptyDB 1 oversizedMessage (some "ok") 0).1.history.length = 2 ∧
    ¬ (handle_user_message emptyDB 1 oversizedMessage (some "ok") 0).1.history.length = 0 := by
  have hne : pyStrip oversizedMessage ≠ "" := by
    intro h
    have ha := (pyStrip_eq_empty_iff oversizedMessage).mp h 'a' ?_
    · simp [isPySpace] at ha
    · show 'a' ∈ List.replicate 5000 'a'
      exact List.mem_replicate.mpr ⟨by omega, rfl⟩
  have hlen : (handle_user_message emptyDB 1 oversizedMessage (some "ok") 0).1.history.length
      = 2 := by
    unfold handle_user_message
    rw [if_neg hne]
    simp [add_message_to_db, emptyDB]
  exact ⟨hlen, by omega⟩

/-- Claim C8 as amended: `handle_user_message` rejects a message exactly when
its stripped text is empty (empty or whitespace-only input): then no turn is
appended, no reply is emitted and the state is unchanged.  There is no
oversize check: every message with a non-empty stripped text — of any
length — is appended together with the reply. -/
theorem c8_empty_rejected_oversize_accepted (db : DB) (u : Nat) (raw : String)
    (o : Option String) (now : Nat) :
    (pyStrip raw = "" → handle_user_message db u raw o now = (db, none)) ∧
    (pyStrip raw ≠ "" →
      (handle_user_message db u raw o now).1.history.length
        = db.history.length + 2) := by
  constructor
  · intro h
    unfold handle_user_message
    rw [if_pos h]
  · intro h
    unfold handle_user_message
    rw [if_neg h]
    simp [add_message_to_db]

/-- Claim C10: for every store state, including when the database read
fails, the output of `load_memory_from_db` is non-empty and its first
element is the fixed system role-definition message; in the failure branch
the output is exactly that single-element list. -/
theorem c10_first_element_always_system_role (fail : Bool) (db : DB) (u n : Nat) :
    load_memory_from_db fail db u n ≠ [] ∧
    (load_memory_from_db fail db u n).head? = some ⟨"system", universal_role⟩ ∧
    (fail = true → load_memory_from_db fail db u n = [⟨"system", universal_role⟩]) := by
  cases fail
  · unfold load_memory_from_db load_memory_ok
    cases h : summaryLookup db u <;> simp [h]
  · unfold load_memory_from_db
    simp

theorem manageEffects_eq_of_usable (thresh nsumm : Nat) (db : DB) (u : Nat)
    (r : Option String) (t : String) (hc : ¬ historyCount db u < thresh)
    (hu : usableText r = some t) :
    manageEffects thresh nsumm db u r =
      Effect.upsertSummary u (mergedSummary (summaryLookup db u) t) ::
        (if (((turnsAsc db u).take nsumm).map (fun x => x.id)).isEmpty then []
         else [Effect.deleteTurns (((turnsAsc db u).take nsumm).map (fun x => x.id))]) := by
  unfold manageEffects
  rw [if_neg hc, hu]

/-- Claim C2: the History Assembler (`load_memory_from_db` on the success
path, with the default limit) is a pure function of the store state — hence
deterministic — whose first element is the fixed system role-definition
message, whose second element is the prefixed summary exactly when a summary
row exists (otherwise the recent turns follow directly), followed by the
recent turns; the sequence never exceeds `2 + MAX_HISTORY_MESSAGES`
elements. -/
theorem c2_history_assembler_shape (db : DB) (u : Nat) :
    (load_memory_from_db false db u MAX_HISTORY_MESSAGES).head?
      = some ⟨"system", universal_role⟩ ∧
    (load_memory_from_db false db u MAX_HISTORY_MESSAGES).length
      ≤ 2 + MAX_HISTORY_MESSAGES ∧
    (∀ s, summaryLookup db u = some s →
      (load_memory_from_db false db u MAX_HISTORY_MESSAGES).get? 1
        = some ⟨"system", summaryHeader ++ s⟩ ∧
      (load_memory_from_db false db u MAX_HISTORY_MESSAGES).drop 2
        = (recentTurns db u MAX_HISTORY_MESSAGES).map (fun t => ⟨t.role, t.content⟩)) ∧
    (summaryLookup db u = none →
      (load_memory_from_db false db u MAX_HISTORY_MESSAGES).drop 1
        = (recentTurns db u MAX_HISTORY_MESSAGES).map (fun t => ⟨t.role, t.content⟩)) := by
  have hlen : (recentTurns db u MAX_HISTORY_MESSAGES).length ≤ MAX_HISTORY_MESSAGES := by
    unfold recentTurns
    rw [List.length_reverse, List.length_take]
    omega
  cases hsum : summaryLookup db u with
  | none =>
    have hL : load_memory_from_db false db u MAX_HISTORY_MESSAGES
        = ⟨"system", universal_role⟩ ::
            (recentTurns db u MAX_HISTORY_MESSAGES).map (fun t => ⟨t.role, t.content⟩) := by
      unfold load_memory_from_db load_memory_ok
      rw [hsum]
      rfl
    rw [hL]
    refine ⟨rfl, ?_, ?_, fun _ => rfl⟩
    · simp only [List.length_cons, List.length_map]
      omega
    · intro s hs
      simp at hs
  | some s0 =>
    have hL : load_memory_from_db false db u MAX_HISTORY_MESSAGES
        = ⟨"system", universal_role⟩ :: ⟨"system", summaryHeader ++ s0⟩ ::
            (recentTurns db u MAX_HISTORY_MESSAGES).map (fun t => ⟨t.role, t.content⟩) := by
      unfold load_memory_from_db load_memory_ok
      rw [hsum]
      rfl
    rw [hL]
    refine ⟨rfl, ?_, ?_, ?_⟩
    · simp only [List.length_cons, List.length_map]
      omega
    · intro s hs
      injection hs with hs
      subst hs
      exact ⟨rfl, rfl⟩
    · intro hnone
      simp at hnone

/-- Claim C3, counterexample: on a first upsert the stored content is the
new fragment with its surrounding whitespace stripped (the code computes
`f"..."​.strip()`), not the fragment itself: upserting `" a "` into an empty
summaries table stores `"a"`. -/
theorem c3_counterexample :
    rowsLookup (summaryUpsert [] 1 " a ") 1 = some "a" ∧
    rowsLookup (summaryUpsert [] 1 " a ") 1 ≠ some " a " := by
  decide

/-- Claim C3 as amended: the summary upsert keeps exactly one row per user
(given the primary-key invariant of at most one existing row); if no summary
exists it creates one whose content is the new fragment with surrounding
whitespace stripped; if one exists the content becomes
`strip(existing ++ blank line ++ fragment)`; and two consecutive upserts
with fragments `"a"` then `"b"` yield exactly the single row
`(u, "a\n\nb")`, containing both fragments in call order. -/
theorem c3_summary_upsert_merges (rows : List (Nat × String)) (u : Nat)
    (frag : String) (h : rowsForUser rows u ≤ 1) :
    rowsForUser (summaryUpsert rows u frag) u = 1 ∧
    (rowsLookup rows u = none →
      rowsLookup (summaryUpsert rows u frag) u = some (pyStrip frag)) ∧
    (∀ e, rowsLookup rows u = some e →
      rowsLookup (summaryUpsert rows u frag) u
        = some (pyStrip (e ++ "\n\n" ++ frag))) ∧
    summaryUpsert (summaryUpsert [] 7 "a") 7 "b" = [(7, "a\n\nb")] := by
  have hx : rowsLookup (summaryUpsert rows u frag) u
      = some (mergedSummary (rowsLookup rows u) frag) :=
    rowsLookup_upsertRow rows u (mergedSummary (rowsLookup rows u) frag)
  refine ⟨rowsForUser_upsertRow rows u _ h, ?_, ?_, by decide⟩
  · intro hn
    rw [hx, hn]
    have hm : mergedSummary none frag = pyStrip frag := by
      show pyStrip ("" ++ "\n\n" ++ frag) = pyStrip frag
      have ha : ("" : String) ++ "\n\n" ++ frag = "\n\n" ++ frag := rfl
      rw [ha, pyStrip_newlines_prepend]
    rw [hm]
  · intro e he
    rw [hx, he]
    rfl

/-- Witness for C3's amended theorem at a concrete table. -/
theorem c3_witness : rowsForUser (summaryUpsert [] 9 "x") 9 = 1 :=
  (c3_summary_upsert_merges [] 9 "x" (by decide)).1

/-- Claim C4: for every store state and every limit, the recent-turns read
inside `load_memory_from_db` returns at most `limit` turns, in chronological
order oldest first by `(timestamp, id)` (the `created_at` column with the
row id as tie-break), and returns the empty sequence for a user with no
stored history. -/
theorem c4_recent_turns_bounded_ordered (db : DB) (u : Nat) (n : Nat) :
    (recentTurns db u n).length ≤ n ∧
    List.Pairwise (fun a b => turnLe a b = true) (recentTurns db u n) ∧
    (userTurns db u = [] → recentTurns db u n = []) := by
  refine ⟨?_, ?_, ?_⟩
  · unfold recentTurns
    rw [List.length_reverse, List.length_take]
    omega
  · have hs := List.sorted_insertionSort turnRelDesc (userTurns db u)
    have ht : List.Pairwise (fun a b => turnLe b a = true)
        ((List.insertionSort turnRelDesc (userTurns db u)).take n) :=
      List.Pairwise.sublist (List.take_sublist n _) hs
    unfold recentTurns
    exact List.pairwise_reverse.mpr ht
  · intro h
    unfold recentTurns
    rw [h]
    simp [List.insertionSort]

/-- Claim C7: in every compaction run the deletion of the compacted turns
comes only after the summary upsert: any `deleteTurns` effect in the run's
effect sequence is strictly preceded by an `upsertSummary` effect for the
same user.  (In the code both statements additionally commit in one
transaction, so a crash between them loses neither.) -/
theorem c7_delete_only_after_upsert (thresh nsumm : Nat) (db : DB) (u : Nat)
    (r : Option String) (i : Nat) (ids : List Nat)
    (h : (manageEffects thresh nsumm db u r).get? i
        = some (Effect.deleteTurns ids)) :
    ∃ j c, j < i ∧
      (manageEffects thresh nsumm db u r).get? j
        = some (Effect.upsertSummary u c) := by
  by_cases hc : historyCount db u < thresh
  · exfalso
    have hnil : manageEffects thresh nsumm db u r = [] := by
      unfold manageEffects
      rw [if_pos hc]
    rw [hnil] at h
    simp at h
  · cases hu : usableText r with
    | none =>
      exfalso
      rw [manageEffects_nil_of_unusable thresh nsumm db u r hu] at h
      simp at h
    | some t =>
      have hE := manageEffects_eq_of_usable thresh nsumm db u r t hc hu
      rw [hE] at h ⊢
      by_cases hids : (((turnsAsc db u).take nsumm).map (fun x => x.id)).isEmpty = true
      · rw [if_pos hids] at h
        cases i with
        | zero => simp at h
        | succ m => simp at h
      · rw [if_neg hids] at h ⊢
        cases i with
        | zero => simp at h
        | succ m =>
          cases m with
          | zero =>
            exact ⟨0, mergedSummary (summaryLookup db u) t, by omega, rfl⟩
          | succ k => simp at h

/-- Witness for C7 at a concrete compaction run whose effect list is an
upsert followed by a delete. -/
theorem c7_witness :
    ∃ j c, j < 1 ∧
      (manageEffects 1 1 ⟨[⟨0, 1, "user", "m", 0⟩], [], 1⟩ 1 (some "s")).get? j
        = some (Effect.upsertSummary 1 c) :=
  c7_delete_only_after_upsert 1 1 ⟨[⟨0, 1, "user", "m", 0⟩], [], 1⟩ 1 (some "s") 1 [0]
    (by decide)

theorem filter_take_drop_split {α : Type} (S : List α) (q : α → Bool) (n : Nat)
    (h1 : (S.take n).filter q = []) (h2 : (S.drop n).filter q = S.drop n) :
    S.filter q = S.drop n := by
  conv_lhs => rw [← List.take_append_drop n S]
  rw [List.filter_append, h1, h2, List.nil_append]

/-- The concrete four-turn store used by claim C9's counterexample and
witness. -/
def sampleHistory4 : DB :=
  ⟨[⟨0, 1, "user", "m0", 0⟩, ⟨1, 1, "assistant", "m1", 0⟩,
    ⟨2, 1, "user", "m2", 1⟩, ⟨3, 1, "assistant", "m3", 1⟩], [], 4⟩

/-- Claim C9, counterexample: a compaction run whose summarizer call returns
the whitespace-only text `" "` (truthy, so it passes the code's
`if not new_summary_part` guard) completes — it prunes the user to
`count = 2` — yet the stored summary content is the EMPTY string, because
the code strips the merged text; so "a successful compaction leaves ... a
non-empty summary" fails as stated. -/
theorem c9_counterexample :
    historyCount (manage_conversation_history 4 2 sampleHistory4 1 (some " ")) 1 = 2 ∧
    summaryLookup (manage_conversation_history 4 2 sampleHistory4 1 (some " ")) 1
      = some "" := by
  decide

/-- Claim C9 as amended: with `SUMMARIZATION_THRESHOLD = 4` and
`MESSAGES_TO_SUMMARIZE = 2`, for a user with exactly 4 stored turns (under
the primary-key invariant that history ids are distinct), a compaction run
whose summarizer call returns text with at least one non-whitespace
character leaves `count(user_id) = 2`, a summary row with non-empty content,
and the user's remaining turns are exactly the 2 most recent ones (the
chronologically sorted history minus its 2 oldest turns). -/
theorem c9_end_to_end (db : DB) (u : Nat) (t : String)
    (hids : (db.history.map (fun x => x.id)).Nodup)
    (hcount : historyCount db u = 4)
    (ht : t ≠ "")
    (hst : pyStrip t ≠ "") :
    historyCount (manage_conversation_history 4 2 db u (some t)) u = 2 ∧
    (∃ s, summaryLookup (manage_conversation_history 4 2 db u (some t)) u = some s ∧
      s ≠ "") ∧
    (userTurns (manage_conversation_history 4 2 db u (some t)) u).Perm
      ((turnsAsc db u).drop 2) := by
  have hc : ¬ historyCount db u < 4 := by omega
  have hu : usableText (some t) = some t := by simp [usableText, ht]
  have hE := manageEffects_eq_of_usable 4 2 db u (some t) t hc hu
  have hSperm : (turnsAsc db u).Perm (userTurns db u) :=
    List.perm_insertionSort turnRel (userTurns db u)
  have hSlen : (turnsAsc db u).length = 4 := by
    rw [hSperm.length_eq]
    exact hcount
  have hidslen : (((turnsAsc db u).take 2).map (fun x => x.id)).length = 2 := by
    rw [List.length_map, List.length_take]
    omega
  have hidsne : ¬ (((turnsAsc db u).take 2).map (fun x => x.id)).isEmpty = true := by
    intro hcontra
    rw [List.isEmpty_iff] at hcontra
    rw [hcontra] at hidslen
    simp at hidslen
  have hM : manage_conversation_history 4 2 db u (some t)
      = { history := db.history.filter
            (fun x => x.id ∉ ((turnsAsc db u).take 2).map (fun y => y.id))
          summaries := upsertRow db.summaries u (mergedSummary (summaryLookup db u) t)
          nextId := db.nextId } := by
    unfold manage_conversation_history
    rw [hE, if_neg hidsne]
    rfl
  have hsum : summaryLookup (manage_conversation_history 4 2 db u (some t)) u
      = some (mergedSummary (summaryLookup db u) t) := by
    rw [hM]
    exact rowsLookup_upsertRow db.summaries u (mergedSummary (summaryLookup db u) t)
  have hnonempty : mergedSummary (summaryLookup db u) t ≠ "" := by
    intro h0
    apply hst
    rw [pyStrip_eq_empty_iff]
    intro c hcmem
    have hall := (pyStrip_eq_empty_iff
      ((summaryLookup db u).getD "" ++ "\n\n" ++ t)).mp h0
    apply hall
    show c ∈ ((summaryLookup db u).getD "" ++ "\n\n" ++ t).data
    rw [String.data_append]
    exact List.mem_append.mpr (Or.inr hcmem)
  have hq : userTurns (manage_conversation_history 4 2 db u (some t)) u
      = (userTurns db u).filter
          (fun x => x.id ∉ ((turnsAsc db u).take 2).map (fun y => y.id)) := by
    rw [hM]
    show (db.history.filter
          (fun x => x.id ∉ ((turnsAsc db u).take 2).map (fun y => y.id))).filter
            (fun x => x.user_id = u)
        = (db.history.filter (fun x => x.user_id = u)).filter
            (fun x => x.id ∉ ((turnsAsc db u).take 2).map (fun y => y.id))
    rw [List.filter_filter, List.filter_filter]
    exact List.filter_congr (fun x _ => Bool.and_comm _ _)
  have hqS : ((userTurns db u).filter
        (fun x => x.id ∉ ((turnsAsc db u).take 2).map (fun y => y.id))).Perm
      ((turnsAsc db u).filter
        (fun x => x.id ∉ ((turnsAsc db u).take 2).map (fun y => y.id))) :=
    (hSperm.symm).filter _
  have htake_nil : ((turnsAsc db u).take 2).filter
      (fun x => x.id ∉ ((turnsAsc db u).take 2).map (fun y => y.id)) = [] := by
    rw [List.filter_eq_nil_iff]
    intro x hx h'
    exact (of_decide_eq_true h') (List.mem_map.mpr ⟨x, hx, rfl⟩)
  have hFnodup : ((userTurns db u).map (fun x => x.id)).Nodup :=
    List.Nodup.sublist (List.Sublist.map _ (List.filter_sublist db.history)) hids
  have hSnodup : ((turnsAsc db u).map (fun x => x.id)).Nodup :=
    ((hSperm.map (fun x => x.id)).nodup_iff).mpr hFnodup
  have hsplit : ((turnsAsc db u).map (fun x => x.id))
      = ((turnsAsc db u).take 2).map (fun x => x.id)
        ++ ((turnsAsc db u).drop 2).map (fun x => x.id) := by
    rw [← List.map_append, List.take_append_drop]
  have hdisj : (((turnsAsc db u).take 2).map (fun x => x.id)).Disjoint
      (((turnsAsc db u).drop 2).map (fun x => x.id)) := by
    rw [hsplit] at hSnodup
    exact (List.nodup_append.mp hSnodup).2.2
  have hdrop_self : ((turnsAsc db u).drop 2).filter
      (fun x => x.id ∉ ((turnsAsc db u).take 2).map (fun y => y.id))
      = (turnsAsc db u).drop 2 := by
    rw [List.filter_eq_self]
    intro x hx
    apply decide_eq_true
    intro hcontra
    exact hdisj hcontra (List.mem_map.mpr ⟨x, hx, rfl⟩)
  have hfilterS := filter_take_drop_split (turnsAsc db u)
    (fun x => decide (x.id ∉ ((turnsAsc db u).take 2).map (fun y => y.id))) 2
    htake_nil hdrop_self
  have hperm : (userTurns (manage_conversation_history 4 2 db u (some t)) u).Perm
      ((turnsAsc db u).drop 2) := by
    rw [hq]
    exact hfilterS ▸ hqS
  refine ⟨?_, ⟨mergedSummary (summaryLookup db u) t, hsum, hnonempty⟩, hperm⟩
  show (userTurns (manage_conversation_history 4 2 db u (some t)) u).length = 2
  rw [hperm.length_eq, List.length_drop, hSlen]

/-- Witness for C9's amended theorem at a concrete four-turn store and a
summarizer reply with non-whitespace text. -/
theorem c9_witness :
    historyCount (manage_conversation_history 4 2 sampleHistory4 1 (some "sum")) 1 = 2 :=
  (c9_end_to_end sampleHistory4 1 "sum" (by decide) (by decide) (by decide)
    (by decide)).1

end ChatBot
